import Mathlib

/-!
Verification development for the AIDEN voice conversation orchestrator
(`backend/voice/voice_manager.py`, `backend/voice/stt.py`,
`backend/voice/tts.py`).

The Python code is shallowly embedded: each method becomes a pure Lean
function over an explicit state record, external collaborators (the
Whisper transcription engine, the ElevenLabs synthesis engine, the
response generator) become oracle parameters of type `Except`/lists of
events, and the real-time behaviour of the asyncio loops is captured by
finite traces of timed events, one entry per point where the Python code
observes the outside world.
-/

namespace AIDEN

/-- Character class used by Python's `str.strip()` (ASCII whitespace,
restricted to the characters that can actually occur in transcripts). -/
def isSpaceChar (c : Char) : Bool :=
  c = ' ' || c = '\t' || c = '\n' || c = '\r'

/-- Strip leading and trailing whitespace from a character list
(`List.rdropWhile p l = (l.reverse.dropWhile p).reverse`). -/
def stripChars (l : List Char) : List Char :=
  List.rdropWhile isSpaceChar (l.dropWhile isSpaceChar)

/-- Embedding of Python's `s.strip()`. -/
def pyStrip (s : String) : String :=
  ⟨stripChars s.data⟩

/-- Embedding of Python's `s.lower()` (ASCII case folding, which is all
that occurs in transcripts and stop phrases). -/
def pyLower (s : String) : String :=
  ⟨s.data.map Char.toLower⟩

/-- Embedding of Python's `needle in hay` substring test. -/
def containsSub (hay needle : String) : Bool :=
  (List.range (hay.data.length + 1)).any
    (fun i => needle.data.isPrefixOf (hay.data.drop i))

/-- Peak normalized amplitude of a PCM int16 buffer:
`np.max(np.abs(audio_array.astype(np.float32) / 32768.0))`
(`stt.py` lines 104 and 112/315), with `np.max` of an empty buffer
taken to be `0`. -/
def maxAbsAmp (frame : List Int) : ℚ :=
  (frame.map (fun s : ℤ => |(s : ℚ)| / 32768)).foldr max 0

/-- Configuration fields of `WhisperSTT` used by the transcription path
(`stt.py` constructor). -/
structure STTConfig where
  sample_rate : ℚ
  silence_threshold : ℚ
  min_audio_length : ℚ
deriving DecidableEq, Repr

/-- Embedding of `WhisperSTT.transcribe_audio` (`stt.py` lines 86-139).
The Whisper model is the oracle `engine`, returning the list of segment
texts or raising.  The result records whether the engine was invoked and
the text returned to the caller: the buffer is skipped (engine not
called, empty text) when it is shorter than `min_audio_length` seconds or
its peak amplitude is below `silence_threshold`; an engine exception is
caught and turns into the empty string. -/
def transcribe_audio (cfg : STTConfig) (engine : List Int → Except String (List String))
    (audio_data : List Int) : Bool × String :=
  let duration : ℚ := (audio_data.length : ℚ) / cfg.sample_rate
  if duration < cfg.min_audio_length then (false, "")
  else if maxAbsAmp audio_data < cfg.silence_threshold then (false, "")
  else
    match engine audio_data with
    | .error _ => (true, "")
    | .ok segments =>
        (true, pyStrip (String.intercalate " " (segments.map (fun t => pyStrip t))))

/-- Embedding of the transcription loop `WhisperSTT.stream_transcription`
(`stt.py` lines 230-290) at the granularity of the buffers it hands to
`transcribe_audio`: each element of `buffers` is the audio coalesced from
the capture queue during one `chunk_duration` interval.  A chunk whose
transcription comes back empty (silence, too short, or an engine error)
yields no fragment; the loop then continues with the next chunk. -/
def stream_transcription (cfg : STTConfig) (engine : List Int → Except String (List String))
    (buffers : List (List Int)) : List String :=
  buffers.filterMap (fun b =>
    let text := (transcribe_audio cfg engine b).2
    if text ≠ "" then some text else none)

/-- Embedding of `WhisperSTT.detect_speech_start` (`stt.py` lines
292-325): polls captured frames until one has peak amplitude strictly
above `silence_threshold`; `frames` are the frames observed before the
timeout elapses, so an all-quiet list means the timeout path (`False`). -/
def detect_speech_start (silence_threshold : ℚ) (frames : List (List Int)) : Bool :=
  frames.any (fun chunk => maxAbsAmp chunk > silence_threshold)

/-- The `VoiceState` enum of `voice_manager.py` lines 21-27. -/
inductive VoiceState
  | idle
  | listening
  | processing
  | speaking
  | error
deriving DecidableEq, Repr

/-- One entry of `VoiceManager.conversation_context`: the dicts appended
at `voice_manager.py` lines 180-184 and 242-246. -/
structure Turn where
  role : String
  content : String
  timestamp : ℚ
deriving DecidableEq, Repr

/-- The mutable fields of a `VoiceManager` instance (together with the
`is_recording` flag of its `WhisperSTT`, which `start_voice_mode` /
`stop_voice_mode` drive directly). -/
structure VMState where
  voice_activation_threshold : ℚ
  max_silence_duration : ℚ
  response_timeout : ℚ
  state : VoiceState
  is_voice_mode_active : Bool
  current_session : Option ℕ
  stt_is_recording : Bool
  conversation_context : List Turn
  last_user_input : String
  last_response : String
deriving DecidableEq, Repr

/-- One yield of `stt.stream_transcription` as observed by
`listen_for_input`'s `async for`, tagged with the wall-clock time at
which the loop body runs for it. -/
structure TimedFrag where
  time : ℚ
  text : String
deriving DecidableEq, Repr

/-- How the `async for text_chunk in self.stt.stream_transcription()`
loop of `listen_for_input` (`voice_manager.py` lines 160-174) ends. -/
inductive ListenExit
  | silenceBreak
  | overallBreak
  | streamEnded
deriving DecidableEq, Repr

/-- Embedding of the fragment-collection loop of
`VoiceManager.listen_for_input` (`voice_manager.py` lines 160-174).
State: the list of appended (stripped) fragments and `last_speech_time`.
Each event is one execution of the loop body: a non-empty stripped chunk
is appended and resets `last_speech_time`; then the silence check and the
overall-timeout check run, both reading the clock at the event's time.
If the generator stops yielding (recording stopped), the loop ends with
`streamEnded`. -/
def listenLoopAux (max_silence_duration timeout start_time : ℚ) :
    List TimedFrag → ℚ → List String → List String × ListenExit
  | [], _, acc => (acc, .streamEnded)
  | e :: rest, last_speech_time, acc =>
      let hasText := pyStrip e.text ≠ ""
      let acc' := if hasText then acc ++ [pyStrip e.text] else acc
      let last' := if hasText then e.time else last_speech_time
      if e.time - last' > max_silence_duration then (acc', .silenceBreak)
      else if e.time - start_time > timeout then (acc', .overallBreak)
      else listenLoopAux max_silence_duration timeout start_time rest last' acc'

/-- Python `full_transcription`: starts `""` and accumulates
`" " + chunk` per fragment; the final transcript is its `.strip()`. -/
def joinFrags (pieces : List String) : String :=
  pyStrip (pieces.foldl (fun a p => a ++ " " ++ p) "")

/-- Embedding of `VoiceManager.listen_for_input` (`voice_manager.py`
lines 127-191).  `frames` are the capture frames available to
`detect_speech_start`; `events` the fragment yields of
`stream_transcription`; `start_time`/`now` the clock at entry and at the
user-turn append.  Raises (returns `.error`) only when voice mode is
inactive; the internal `except` path (reachable when the STT is not
recording, making `detect_speech_start` raise) sets state to `error` and
returns the empty string. -/
def listen_for_input (vm : VMState) (frames : List (List Int)) (events : List TimedFrag)
    (start_time now : ℚ) : Except String (VMState × String) :=
  if vm.is_voice_mode_active = false then
    .error "Voice mode must be started before listening"
  else
    let vm1 := { vm with state := VoiceState.listening }
    if vm.stt_is_recording = false then
      .ok ({ vm1 with state := VoiceState.error }, "")
    else if detect_speech_start vm.voice_activation_threshold frames = false then
      .ok (vm1, "")
    else
      let pieces :=
        (listenLoopAux vm.max_silence_duration vm.response_timeout start_time
          events start_time []).1
      let full := joinFrags pieces
      let vm2 := { vm1 with last_user_input := full }
      if full ≠ "" then
        .ok ({ vm2 with conversation_context :=
                 vm2.conversation_context ++ [⟨"user", full, now⟩] }, full)
      else
        .ok (vm2, full)

/-- One `websocket.recv()` outcome inside `speak_response`'s chunk loop
(`voice_manager.py` lines 222-239): a decoded JSON message (with optional
base64 audio and `isFinal` flag), an `asyncio.TimeoutError` at the 5s
per-chunk timeout, any other exception, or a `json.JSONDecodeError`. -/
inductive RecvEvent
  | msg (audio : Option String) (isFinal : Bool)
  | timeout
  | connError (e : String)
  | badJson
deriving DecidableEq, Repr

/-- How the `while True` chunk loop of `speak_response` ends. -/
inductive SpeakExit
  | finalMsg
  | timedOut
  | raised (e : String)
  | starved
deriving DecidableEq, Repr

/-- Embedding of the chunk loop of `speak_response` (`voice_manager.py`
lines 222-239).  Returns the audio chunks handed to `stream_callback`
and the way the loop ended: `isFinal` message or per-chunk timeout break
out of the loop; any other recv exception escapes to the outer `except`;
`starved` marks a trace that ends while the loop is still awaiting
`recv` (the Python code would block there). -/
def speakLoop : List RecvEvent → List String → List String × SpeakExit
  | [], acc => (acc, .starved)
  | .msg audio isFinal :: rest, acc =>
      let acc' := match audio with
        | some a => acc ++ [a]
        | none => acc
      if isFinal then (acc', .finalMsg) else speakLoop rest acc'
  | .timeout :: _, acc => (acc, .timedOut)
  | .connError e :: _, acc => (acc, .raised e)
  | .badJson :: rest, acc => speakLoop rest acc

/-- Result of `speak_response`: normal return with the new state and the
audio chunks delivered to `stream_callback`; `blocked` when the modelled
trace leaves the code awaiting `recv` forever; `raisedErr` when the
method propagates an exception (only possible on the no-session blob
path, which has no `try`). -/
inductive SpeakResult
  | ok (vm : VMState) (delivered : List String)
  | blocked (vm : VMState) (delivered : List String)
  | raisedErr (e : String) (vm : VMState)
deriving DecidableEq, Repr

/-- Embedding of `VoiceManager.speak_response` (`voice_manager.py` lines
193-261).  `send_outcome` is the result of
`current_session["send_text"](text, flush=True)`; `recv` the trace of
`websocket.recv()` outcomes; `blob` the result of the non-streaming
`tts.synthesize(text)` used by the no-session path and by the fallback
in the outer `except`; `now` the clock at the assistant-turn append. -/
def speak_response (vm : VMState) (text : String) (send_outcome : Except String Unit)
    (recv : List RecvEvent) (blob : Except String String) (now : ℚ) : SpeakResult :=
  if vm.is_voice_mode_active = false ∨ vm.current_session = none then
    match blob with
    | .ok audio_data => .ok vm [audio_data]
    | .error e => .raisedErr e vm
  else
    let vm1 := { vm with state := VoiceState.speaking }
    match send_outcome with
    | .error _ =>
        let vm2 := { vm1 with state := VoiceState.error }
        match blob with
        | .ok audio_data => .ok vm2 [audio_data]
        | .error _ => .ok vm2 []
    | .ok _ =>
        match speakLoop recv [] with
        | (delivered, .finalMsg) =>
            .ok { vm1 with
                    last_response := text,
                    conversation_context :=
                      vm1.conversation_context ++ [⟨"assistant", text, now⟩],
                    state := VoiceState.listening } delivered
        | (delivered, .timedOut) =>
            .ok { vm1 with
                    last_response := text,
                    conversation_context :=
                      vm1.conversation_context ++ [⟨"assistant", text, now⟩],
                    state := VoiceState.listening } delivered
        | (delivered, .raised _) =>
            let vm2 := { vm1 with state := VoiceState.error }
            match blob with
            | .ok audio_data => .ok vm2 (delivered ++ [audio_data])
            | .error _ => .ok vm2 delivered
        | (delivered, .starved) => .blocked vm1 delivered

/-- Cleanup side effects performed by `stop_voice_mode`. -/
inductive Effect
  | stopRecording
  | closeSession
deriving DecidableEq, Repr

/-- Embedding of `VoiceManager.stop_voice_mode` (`voice_manager.py`
lines 105-125): clears the active flag, forces state to `idle`, stops
the STT stream if it is recording, and closes + drops the TTS session if
one is held.  Both cleanup calls swallow their own exceptions, so the
method never raises; the returned list records which cleanup actions
actually ran. -/
def stop_voice_mode (vm : VMState) : VMState × List Effect :=
  let effects :=
    (if vm.stt_is_recording then [Effect.stopRecording] else []) ++
    (if vm.current_session.isSome then [Effect.closeSession] else [])
  ({ vm with
       is_voice_mode_active := false,
       state := VoiceState.idle,
       stt_is_recording := false,
       current_session := none }, effects)

/-- Result of `start_voice_mode`: the final state of the manager, the
exception it re-raised (if any), and the `VoiceState` values assigned
along the way (in order). -/
structure StartResult where
  vm : VMState
  raised : Option String
  visited : List VoiceState
deriving DecidableEq, Repr

/-- Embedding of `VoiceManager.start_voice_mode` (`voice_manager.py`
lines 79-103).  `rec_outcome` models `stt.start_recording()` (on failure
the STT's own handler leaves `is_recording` false and re-raises);
`session_outcome` models `tts.multi_context_stream("conversation")`.
On any failure the `except` block sets state `error`, runs
`stop_voice_mode`, and re-raises. -/
def start_voice_mode (vm : VMState) (rec_outcome : Except String Unit)
    (session_outcome : Except String ℕ) : StartResult :=
  if vm.is_voice_mode_active then
    { vm := vm, raised := none, visited := [] }
  else
    match rec_outcome with
    | .error e =>
        let vm1 := { vm with state := VoiceState.error }
        let vm2 := (stop_voice_mode vm1).1
        { vm := vm2, raised := some e, visited := [VoiceState.error, VoiceState.idle] }
    | .ok _ =>
        let vmRec := { vm with stt_is_recording := true }
        match session_outcome with
        | .error e =>
            let vm1 := { vmRec with state := VoiceState.error }
            let vm2 := (stop_voice_mode vm1).1
            { vm := vm2, raised := some e,
              visited := [VoiceState.error, VoiceState.idle] }
        | .ok handle =>
            { vm := { vmRec with
                        current_session := some handle,
                        is_voice_mode_active := true,
                        state := VoiceState.listening },
              raised := none, visited := [VoiceState.listening] }

/-- Everything one iteration of the conversation needs from the outside
world: the capture frames and transcription fragments seen by
`listen_for_input`, the response generator's outcome, and the synthesis
session's behaviour seen by `speak_response`. -/
structure TurnScript where
  frames : List (List Int)
  events : List TimedFrag
  start_time : ℚ
  now : ℚ
  agentResult : Except String (List String)
  send_outcome : Except String Unit
  recv : List RecvEvent
  blob : Except String String
deriving Repr

/-- Result of `handle_conversation_turn`: the returned dict
`{user_input, agent_response}` with the new state, a `blocked` marker for
traces that leave the code awaiting forever, or the `RuntimeError`
raised when voice mode is inactive. -/
inductive TurnResult
  | done (vm : VMState) (user_input agent_response : String)
  | blocked (vm : VMState)
  | raisedRuntime (e : String)
deriving DecidableEq, Repr

/-- Embedding of `VoiceManager.handle_conversation_turn`
(`voice_manager.py` lines 263-313): listen, then (for non-empty input)
set state `processing`, accumulate the agent's fragments, and speak any
non-empty reply.  The outer `except` turns an agent exception or a
propagated speak exception into state `error` with empty dict fields. -/
def handle_conversation_turn (vm : VMState) (ts : TurnScript) : TurnResult :=
  if vm.is_voice_mode_active = false then
    .raisedRuntime "Voice mode must be active for conversation turns"
  else
    match listen_for_input vm ts.frames ts.events ts.start_time ts.now with
    | .error e => .raisedRuntime e
    | .ok (vm1, user_input) =>
        if user_input = "" then .done vm1 "" ""
        else
          let vm2 := { vm1 with state := VoiceState.processing }
          match ts.agentResult with
          | .error _ => .done { vm2 with state := VoiceState.error } "" ""
          | .ok fragments =>
              let agent_response := String.join fragments
              if agent_response ≠ "" then
                match speak_response vm2 agent_response ts.send_outcome ts.recv
                    ts.blob ts.now with
                | .ok vm3 _ => .done vm3 user_input agent_response
                | .blocked vm3 _ => .blocked vm3
                | .raisedErr _ vm3 =>
                    .done { vm3 with state := VoiceState.error } "" ""
              else .done vm2 user_input agent_response

/-- Run a list of conversation turns in sequence (used to state the
transcript-alternation property); stops at the first turn that blocks or
raises. -/
def runTurns (vm : VMState) : List TurnScript → VMState
  | [] => vm
  | ts :: rest =>
      match handle_conversation_turn vm ts with
      | .done vm1 _ _ => runTurns vm1 rest
      | .blocked vm1 => vm1
      | .raisedRuntime _ => vm

/-- Observable events of `continuous_conversation`: one completed turn
(the dict returned by `handle_conversation_turn`, so any Speaking phase
for it has already finished), and the execution of `stop_voice_mode`. -/
inductive ConvEvent
  | turnDone (user_input agent_response : String)
  | stopped
deriving DecidableEq, Repr

/-- The default `stop_phrases` list of `continuous_conversation`
(`voice_manager.py` line 331). -/
def defaultStopPhrases : List String :=
  ["goodbye", "stop conversation", "end voice mode"]

/-- Embedding of `VoiceManager.continuous_conversation`
(`voice_manager.py` lines 315-354).  The scripts list supplies one
`TurnScript` per loop iteration; `none` marks a run that is still going
(or blocked) when the scripts run out.  After the loop ends — stop
phrase detected, voice mode no longer active, or an exception caught by
the outer `except` — the `finally` block runs `stop_voice_mode` exactly
once. -/
def continuous_conversation (vm : VMState) (stop_phrases : List String) :
    List TurnScript → Option (VMState × List ConvEvent)
  | [] =>
      if vm.is_voice_mode_active = false then
        some ((stop_voice_mode vm).1, [ConvEvent.stopped])
      else none
  | ts :: rest =>
      if vm.is_voice_mode_active = false then
        some ((stop_voice_mode vm).1, [ConvEvent.stopped])
      else
        match handle_conversation_turn vm ts with
        | .done vm1 user_input agent_response =>
            let lowered := pyLower user_input
            if stop_phrases.any (fun phrase => containsSub lowered phrase) then
              some ((stop_voice_mode vm1).1,
                [ConvEvent.turnDone user_input agent_response, ConvEvent.stopped])
            else
              match continuous_conversation vm1 stop_phrases rest with
              | some (vmF, evs) =>
                  some (vmF, ConvEvent.turnDone user_input agent_response :: evs)
              | none => none
        | .blocked _ => none
        | .raisedRuntime _ =>
            some ((stop_voice_mode vm).1, [ConvEvent.stopped])

/-- Embedding of `VoiceManager.get_conversation_context`
(`voice_manager.py` lines 356-358):
`self.conversation_context[-limit:] if limit else self.conversation_context`.
Python's `xs[-limit:]` for positive `limit` is `drop (length - limit)`
(the whole list when `limit ≥ length`), and `limit = 0` is falsy, so the
whole transcript is returned. -/
def get_conversation_context (vm : VMState) (limit : ℕ) : List Turn :=
  if limit ≠ 0 then
    vm.conversation_context.drop (vm.conversation_context.length - limit)
  else vm.conversation_context

/-- No two consecutive turns share a role. -/
def alternatingRoles : List Turn → Bool
  | [] => true
  | [_] => true
  | a :: b :: rest => (a.role ≠ b.role : Bool) && alternatingRoles (b :: rest)

/-- The transcript `listen_for_input` finalizes, as a pure function of
its inputs (voice mode active and STT recording assumed; `thr`, `ms`,
`rt` are the manager's activation threshold, max silence duration and
response timeout). -/
def finalTranscript (thr ms rt : ℚ) (frames : List (List Int))
    (events : List TimedFrag) (st : ℚ) : String :=
  if detect_speech_start thr frames = false then ""
  else joinFrags (listenLoopAux ms rt st events st []).1

/-- The transcript `listen_for_input` finalizes for one scripted turn. -/
def turnInput (thr ms rt : ℚ) (ts : TurnScript) : String :=
  finalTranscript thr ms rt ts.frames ts.events ts.start_time

/-- Audio chunks a `speak_response` run hands to its `stream_callback`. -/
def speakDelivered : SpeakResult → List String
  | .ok _ delivered => delivered
  | .blocked _ delivered => delivered
  | .raisedErr _ _ => []

/-- The manager state a `speak_response` run leaves behind. -/
def speakVM : SpeakResult → VMState
  | .ok vm _ => vm
  | .blocked vm _ => vm
  | .raisedErr _ vm => vm

/-- Invariant carried through conversation turns: the transcript has no
two consecutive same-role turns and does not end in a user turn. -/
def ctxAltOK (l : List Turn) : Bool :=
  alternatingRoles l &&
    (match l.getLast? with
     | none => true
     | some t => (t.role ≠ "user" : Bool))

/-- The reply text accumulated from the response generator's fragments
(`agent_response` in `handle_conversation_turn`). -/
def turnReply (ts : TurnScript) : String :=
  match ts.agentResult with
  | .ok fragments => String.join fragments
  | .error _ => ""

/-- The chunk loop ends by `isFinal` message or per-chunk timeout — the
two exits after which `speak_response` appends the agent turn and
returns to `Listening`. -/
def exitEndsSpeaking : SpeakExit → Bool
  | .finalMsg => true
  | .timedOut => true
  | _ => false

/-- A conversation turn in which a non-empty finalized user input gets a
non-empty agent reply whose speaking phase completes by final chunk or
chunk timeout (so both the user and the agent turn are appended). -/
def goodTurn (thr ms rt : ℚ) (ts : TurnScript) : Bool :=
  (turnInput thr ms rt ts = "" : Bool) ||
    ((match ts.agentResult with
      | .ok fragments => (String.join fragments ≠ "" : Bool)
      | .error _ => false) &&
     (match ts.send_outcome with
      | .ok _ => true
      | .error _ => false) &&
     exitEndsSpeaking (speakLoop ts.recv []).2)

/-- The stop-phrase test of `continuous_conversation`
(`voice_manager.py` line 344): some configured phrase is a substring of
the lower-cased user input. -/
def stopHit (stop_phrases : List String) (user_input : String) : Bool :=
  stop_phrases.any (fun phrase => containsSub (pyLower user_input) phrase)

/-- A freshly started voice session with the constructor's default
thresholds (`voice_activation_threshold = 0.02`,
`max_silence_duration = 2.0`, `response_timeout = 10.0`), used for the
concrete scenarios below. -/
def vmFresh : VMState :=
  { voice_activation_threshold := 1/50
    max_silence_duration := 2
    response_timeout := 10
    state := VoiceState.listening
    is_voice_mode_active := true
    current_session := some 0
    stt_is_recording := true
    conversation_context := []
    last_user_input := ""
    last_response := "" }

/-- A turn whose user input finalizes to `"hi"` but whose agent reply is
empty: the user turn is appended and no agent turn follows. -/
def tsEmptyReply : TurnScript :=
  { frames := [[1000]]
    events := [⟨1, "hi"⟩]
    start_time := 0
    now := 1
    agentResult := .ok []
    send_outcome := .ok ()
    recv := []
    blob := .ok "B" }

/-- A second such turn, with user input `"again"`. -/
def tsEmptyReply2 : TurnScript :=
  { tsEmptyReply with events := [⟨1, "again"⟩] }

/-- A turn whose finalized user input `"goodbye"` contains a stop phrase
and whose reply `"bye now"` streams one audio chunk then the final
marker. -/
def tsGoodbye : TurnScript :=
  { frames := [[1000]]
    events := [⟨1, "goodbye"⟩]
    start_time := 0
    now := 1
    agentResult := .ok ["bye", " now"]
    send_outcome := .ok ()
    recv := [RecvEvent.msg (some "A") true]
    blob := .ok "B" }

/-- An idle manager (fresh construction or after `stop_voice_mode`). -/
def vmIdle : VMState :=
  { vmFresh with
      state := VoiceState.idle
      is_voice_mode_active := false
      current_session := none
      stt_is_recording := false }

/-- A tiny STT configuration (1 Hz sample rate, 1 s minimum buffer)
used to evaluate the transcription loop on short concrete buffers. -/
def cfgW : STTConfig :=
  { sample_rate := 1, silence_threshold := 1/50, min_audio_length := 1 }

/-- A transcription engine that raises exactly on the buffer `[1000]`
and otherwise transcribes to the single segment text `"next"`. -/
def engineW (b : List Int) : Except String (List String) :=
  if b = [1000] then .error "boom" else .ok ["next"]

theorem foldr_max_lt_iff {c : ℚ} (h0 : 0 < c) (l : List ℚ) :
    l.foldr max 0 < c ↔ ∀ x ∈ l, x < c := by
  induction l with
  | nil => simpa using h0
  | cons a t ih => simp [max_lt_iff, ih]

theorem maxAbsAmp_lt_iff {thr : ℚ} (h0 : 0 < thr) (l : List Int) :
    maxAbsAmp l < thr ↔ ∀ s ∈ l, |(s : ℚ)| / 32768 < thr := by
  unfold maxAbsAmp
  rw [foldr_max_lt_iff h0]
  constructor
  · intro h s hs
    exact h _ (List.mem_map_of_mem (fun t : ℤ => |(t : ℚ)| / 32768) hs)
  · intro h x hx
    rw [List.mem_map] at hx
    obtain ⟨s, hs, rfl⟩ := hx
    exact h s hs

theorem maxAbsAmp_flatten_lt {thr : ℚ} (h0 : 0 < thr) (iv : List (List Int))
    (h : ∀ f ∈ iv, maxAbsAmp f < thr) : maxAbsAmp iv.flatten < thr := by
  rw [maxAbsAmp_lt_iff h0]
  intro s hs
  rw [List.mem_flatten] at hs
  obtain ⟨f, hf, hsf⟩ := hs
  exact (maxAbsAmp_lt_iff h0 f).mp (h f hf) s hsf

/-- C7: calling `stop_voice_mode` twice in a row leaves the session in
`Idle` after each call, and the second call is a complete no-op: it
performs no cleanup effects (the session is already closed and the
capture already stopped), changes nothing, and — being total — completes
without error. -/
theorem C7_stop_voice_mode_idempotent (vm : VMState) :
    (stop_voice_mode vm).1.state = VoiceState.idle ∧
    stop_voice_mode (stop_voice_mode vm).1 = ((stop_voice_mode vm).1, []) := by
  refine ⟨rfl, ?_⟩
  simp [stop_voice_mode]

/-- C10: `get_conversation_context` returns exactly the last `limit`
transcript entries, in order, for `limit > 0`, and the whole transcript
for `limit = 0` (Python's `if limit` treats `0` as falsy).  The
embedding is a pure function of the state, reflecting that the getter
does not mutate the transcript. -/
theorem C10_get_conversation_context (vm : VMState) (limit : ℕ) :
    get_conversation_context vm limit =
      if limit = 0 then vm.conversation_context
      else (vm.conversation_context.reverse.take limit).reverse := by
  by_cases h : limit = 0
  · simp [get_conversation_context, h]
  · simp only [get_conversation_context, h, if_neg, ite_false, if_true, ne_eq,
      not_false_eq_true, ite_true]
    exact List.rtake_eq_reverse_take_reverse vm.conversation_context limit

/-- C5: for a sequence of captured frames whose peak normalized
amplitude is below the (positive) activation threshold — which the
manager installs as the STT silence threshold — `detect_speech_start`
never reports speech, and any buffer coalesced from those frames is
skipped by `transcribe_audio` without calling the Whisper engine, so the
transcription stream yields no fragment for them. -/
theorem C5_below_threshold_no_speech (thr : ℚ) (cfg : STTConfig)
    (engine : List Int → Except String (List String))
    (frames : List (List Int)) (intervals : List (List (List Int)))
    (h0 : 0 < thr) (hcfg : cfg.silence_threshold = thr)
    (hq : ∀ f ∈ frames, maxAbsAmp f < thr)
    (hiv : ∀ iv ∈ intervals, ∀ f ∈ iv, f ∈ frames) :
    detect_speech_start thr frames = false ∧
    (∀ iv ∈ intervals, transcribe_audio cfg engine iv.flatten = (false, "")) ∧
    stream_transcription cfg engine (intervals.map (fun iv => iv.flatten)) = [] := by
  have hbuf : ∀ iv ∈ intervals, transcribe_audio cfg engine iv.flatten = (false, "") := by
    intro iv hivmem
    have hamp : maxAbsAmp iv.flatten < cfg.silence_threshold := by
      rw [hcfg]
      exact maxAbsAmp_flatten_lt h0 iv (fun f hf => hq f (hiv iv hivmem f hf))
    simp only [transcribe_audio]
    by_cases hd : ((iv.flatten.length : ℚ) / cfg.sample_rate) < cfg.min_audio_length
    · rw [if_pos hd]
    · rw [if_neg hd, if_pos hamp]
  refine ⟨?_, hbuf, ?_⟩
  · simp only [detect_speech_start, List.any_eq_false]
    intro f hf
    simpa using lt_asymm (hq f hf)
  · simp only [stream_transcription, List.filterMap_eq_nil_iff, List.mem_map]
    rintro b ⟨iv, hivmem, rfl⟩
    simp [hbuf iv hivmem]

/-- C5 witness: two quiet frames (peaks 200/32768 and 0) below the
default threshold 0.02, grouped into two transcription intervals. -/
theorem C5_below_threshold_no_speech_witness :
    detect_speech_start (1/50) [[100, -200], [0]] = false ∧
    (∀ iv ∈ [[[100, -200]], [[0]]],
      transcribe_audio cfgW engineW iv.flatten = (false, "")) ∧
    stream_transcription cfgW engineW
      ([[[100, -200]], [[0]]].map (fun iv => iv.flatten)) = [] := by
  have h := C5_below_threshold_no_speech (1/50) cfgW engineW
    [[100, -200], [0]] [[[100, -200]], [[0]]]
    (by norm_num) rfl
    (by intro f hf; simp only [List.mem_cons, List.not_mem_nil, or_false] at hf
        rcases hf with rfl | rfl <;> norm_num [maxAbsAmp])
    (by decide)
  exact ⟨h.1, h.2.1, h.2.2⟩

/-- C8: an engine failure on one chunk does not terminate the lazy
fragment sequence: the failed chunk (here actually reaching the engine:
long enough and loud enough) yields no fragment, and the loop keeps
producing the fragments of the surrounding chunks. -/
theorem C8_engine_failure_skipped (cfg : STTConfig)
    (engine : List Int → Except String (List String))
    (pre suf : List (List Int)) (bad : List Int) (e : String)
    (hbad : engine bad = .error e)
    (hdur : ¬ ((bad.length : ℚ) / cfg.sample_rate < cfg.min_audio_length))
    (hamp : ¬ (maxAbsAmp bad < cfg.silence_threshold)) :
    (transcribe_audio cfg engine bad).1 = true ∧
    stream_transcription cfg engine (pre ++ bad :: suf) =
      stream_transcription cfg engine pre ++ stream_transcription cfg engine suf := by
  have hb : transcribe_audio cfg engine bad = (true, "") := by
    simp [transcribe_audio, hdur, hamp, hbad]
  refine ⟨by rw [hb], ?_⟩
  simp only [stream_transcription, List.filterMap_append, List.filterMap_cons, hb]
  simp

/-- C8 witness: with a 1 Hz sample rate, the chunk `[1000]` reaches the
engine (duration 1 s, peak above threshold), the engine raises `"boom"`,
and the surrounding chunks `[900]` and `[800]` still both produce their
fragment `"next"`. -/
theorem C8_engine_failure_skipped_witness :
    engineW [1000] = .error "boom" ∧
    ((transcribe_audio cfgW engineW [1000]).1 = true ∧
     stream_transcription cfgW engineW ([[900]] ++ [1000] :: [[800]]) =
       stream_transcription cfgW engineW [[900]] ++
         stream_transcription cfgW engineW [[800]]) :=
  ⟨rfl, C8_engine_failure_skipped cfgW engineW [[900]] [[800]] [1000] "boom" rfl
    (by norm_num [cfgW])
    (by norm_num [maxAbsAmp, cfgW])⟩

/-- C9: when voice mode is active (with the capture stream recording)
and no available frame classifies as speech, `listen_for_input` returns
the empty string, leaves the state `Listening`, and appends no turn to
the conversation transcript. -/
theorem C9_silent_timeout_listen (vm : VMState) (frames : List (List Int))
    (events : List TimedFrag) (st now : ℚ)
    (hact : vm.is_voice_mode_active = true)
    (hrec : vm.stt_is_recording = true)
    (hframes : ∀ f ∈ frames, ¬ (maxAbsAmp f > vm.voice_activation_threshold)) :
    listen_for_input vm frames events st now =
      .ok ({ vm with state := VoiceState.listening }, "") := by
  have hd : detect_speech_start vm.voice_activation_threshold frames = false := by
    simp only [detect_speech_start, List.any_eq_false]
    intro f hf
    simpa using hframes f hf
  simp [listen_for_input, hact, hrec, hd]

/-- C9 witness: a fresh active session given one quiet frame returns
`""`, remains `Listening`, and leaves the transcript untouched. -/
theorem C9_silent_timeout_listen_witness :
    listen_for_input vmFresh [[100]] [⟨1, "x"⟩] 0 1 =
      .ok ({ vmFresh with state := VoiceState.listening }, "") :=
  C9_silent_timeout_listen vmFresh [[100]] [⟨1, "x"⟩] 0 1 rfl rfl
    (by intro f hf; simp only [List.mem_cons, List.not_mem_nil, or_false] at hf
        subst hf; norm_num [maxAbsAmp, vmFresh])

/-- C4: if, with voice mode not yet active, either opening the capture
stream or opening the synthesis context raises during
`start_voice_mode`, the attempt re-raises that error, the state passes
through `Error`, and after the internal `stop_voice_mode` cleanup the
manager is `Idle`, inactive, not recording, and holds no synthesis
session. -/
theorem C4_start_failure_cleanup (vm : VMState) (rec_outcome : Except String Unit)
    (session_outcome : Except String ℕ) (e : String)
    (hact : vm.is_voice_mode_active = false)
    (hfail : rec_outcome = .error e ∨
      (rec_outcome = .ok () ∧ session_outcome = .error e)) :
    (start_voice_mode vm rec_outcome session_outcome).raised = some e ∧
    (start_voice_mode vm rec_outcome session_outcome).vm.state = VoiceState.idle ∧
    (start_voice_mode vm rec_outcome session_outcome).vm.is_voice_mode_active = false ∧
    (start_voice_mode vm rec_outcome session_outcome).vm.stt_is_recording = false ∧
    (start_voice_mode vm rec_outcome session_outcome).vm.current_session = none ∧
    VoiceState.error ∈ (start_voice_mode vm rec_outcome session_outcome).visited := by
  rcases hfail with h | ⟨h1, h2⟩
  · simp [start_voice_mode, stop_voice_mode, hact, h]
  · simp [start_voice_mode, stop_voice_mode, hact, h1, h2]

/-- C4 witness: from an idle manager, a failing capture-stream open
(`"mic down"`) is re-raised and leaves an idle, inactive, sessionless
manager, with `Error` among the visited states. -/
theorem C4_start_failure_cleanup_witness :
    (start_voice_mode vmIdle (.error "mic down") (.ok 1)).raised = some "mic down" ∧
    (start_voice_mode vmIdle (.error "mic down") (.ok 1)).vm.state = VoiceState.idle ∧
    (start_voice_mode vmIdle (.error "mic down") (.ok 1)).vm.is_voice_mode_active = false ∧
    (start_voice_mode vmIdle (.error "mic down") (.ok 1)).vm.stt_is_recording = false ∧
    (start_voice_mode vmIdle (.error "mic down") (.ok 1)).vm.current_session = none ∧
    VoiceState.error ∈ (start_voice_mode vmIdle (.error "mic down") (.ok 1)).visited :=
  C4_start_failure_cleanup vmIdle (.error "mic down") (.ok 1) "mic down" rfl
    (Or.inl rfl)

theorem stripChars_idem (l : List Char) : stripChars (stripChars l) = stripChars l := by
  unfold stripChars
  have hpre := List.rdropWhile_prefix isSpaceChar (l.dropWhile isSpaceChar)
  have h1 : (List.rdropWhile isSpaceChar (l.dropWhile isSpaceChar)).dropWhile isSpaceChar
      = List.rdropWhile isSpaceChar (l.dropWhile isSpaceChar) := by
    rw [List.dropWhile_eq_self_iff]
    intro hl
    have hA0 : 0 < (l.dropWhile isSpaceChar).length := lt_of_lt_of_le hl hpre.length_le
    have hget := List.IsPrefix.getElem hpre hl
    have hnot := List.dropWhile_get_zero_not isSpaceChar l hA0
    simp only [List.get_eq_getElem] at hnot ⊢
    rw [hget]
    exact hnot
  rw [h1, List.rdropWhile_idempotent]

theorem pyStrip_idem (s : String) : pyStrip (pyStrip s) = pyStrip s :=
  congrArg String.mk (stripChars_idem s.data)

theorem transcribe_audio_text_strip (cfg : STTConfig)
    (engine : List Int → Except String (List String)) (b : List Int) :
    (transcribe_audio cfg engine b).2 = "" ∨
    ∃ x, (transcribe_audio cfg engine b).2 = pyStrip x := by
  simp only [transcribe_audio]
  by_cases hd : ((b.length : ℚ) / cfg.sample_rate) < cfg.min_audio_length
  · rw [if_pos hd]
    exact Or.inl rfl
  · rw [if_neg hd]
    by_cases ha : maxAbsAmp b < cfg.silence_threshold
    · rw [if_pos ha]
      exact Or.inl rfl
    · rw [if_neg ha]
      rcases hE : engine b with e | segs
      · exact Or.inl rfl
      · exact Or.inr ⟨_, rfl⟩

theorem stream_transcription_frag_strip (cfg : STTConfig)
    (engine : List Int → Except String (List String)) (buffers : List (List Int)) :
    ∀ o ∈ stream_transcription cfg engine buffers, pyStrip o = o ∧ o ≠ "" := by
  intro o ho
  simp only [stream_transcription, List.mem_filterMap] at ho
  obtain ⟨b, hb, hob⟩ := ho
  split at hob
  case isTrue ht =>
    rw [Option.some_inj] at hob
    subst hob
    refine ⟨?_, ht⟩
    rcases transcribe_audio_text_strip cfg engine b with h | ⟨x, hx⟩
    · exact absurd h ht
    · rw [hx, pyStrip_idem]
  case isFalse ht => cases hob

/-- C1: the silence-timeout exit of `listen_for_input`'s collection loop
is unreachable.  The loop body runs only when `stream_transcription`
yields a fragment, every yielded fragment is non-empty after stripping
(see `stream_transcription_frag_strip`), and such a fragment resets
`last_speech_time` to the current event time immediately before the
silence check, so `now - last_speech_time > max_silence_duration` is
never observed true.  Contrary to the claim, an utterance followed by
pure silence is never finalized by the silence rule: the loop keeps
awaiting the next fragment. -/
theorem C1_silence_break_unreachable (ms rt st lastT : ℚ) (events : List TimedFrag)
    (acc : List String)
    (h0 : 0 ≤ ms)
    (hne : ∀ ev ∈ events, pyStrip ev.text ≠ "") :
    (listenLoopAux ms rt st events lastT acc).2 ≠ ListenExit.silenceBreak := by
  induction events generalizing lastT acc with
  | nil => simp [listenLoopAux]
  | cons ev rest ih =>
    have hev : pyStrip ev.text ≠ "" := hne ev (List.mem_cons_self _ _)
    have hrest : ∀ x ∈ rest, pyStrip x.text ≠ "" := fun x hx =>
      hne x (List.mem_cons_of_mem _ hx)
    have hsil : ¬ (ev.time - (if pyStrip ev.text ≠ "" then ev.time else lastT) > ms) := by
      rw [if_pos hev, sub_self]
      exact not_lt.mpr h0
    simp only [listenLoopAux]
    rw [if_neg hsil]
    by_cases hover : ev.time - st > rt
    · rw [if_pos hover]
      simp
    · rw [if_neg hover]
      exact ih _ _ hrest

/-- C1 witness: a single fragment `"hello"` yielded at t = 1 s followed
by unbounded silence, with the default `max_silence_duration = 2`: the
loop never takes the silence exit (it ends only because the modelled
stream ends). -/
theorem C1_silence_break_unreachable_witness :
    (0 : ℚ) ≤ 2 ∧
    (listenLoopAux 2 10 0 [⟨1, "hello"⟩] 0 []).2 ≠ ListenExit.silenceBreak :=
  ⟨by norm_num,
   C1_silence_break_unreachable 2 10 0 0 [⟨1, "hello"⟩] [] (by norm_num) (by decide)⟩

theorem speakLoop_skips_badJson (pre rest : List RecvEvent) (acc : List String)
    (hpre : ∀ x ∈ pre, x = RecvEvent.badJson) :
    speakLoop (pre ++ rest) acc = speakLoop rest acc := by
  induction pre with
  | nil => rfl
  | cons a t ih =>
    have ha : a = RecvEvent.badJson := hpre a (List.mem_cons_self _ _)
    subst ha
    simp only [List.cons_append, speakLoop]
    exact ih fun x hx => hpre x (List.mem_cons_of_mem _ hx)

/-- C2 counterexample: streaming session open, `send_text` succeeded,
and the single receive attempt fails with the 5 s per-chunk timeout (so
every receive attempt of this reply failed).  Contrary to the claim, no
audio at all is delivered — the blob fallback is not invoked on the
timeout path, which merely breaks out of the loop — even though the blob
synthesis (`"BLOB"`) was available; the state does return to
`Listening`. -/
theorem C2_counterexample :
    speakDelivered (speak_response vmFresh "hello" (.ok ()) [RecvEvent.timeout]
      (.ok "BLOB") 5) = [] ∧
    (speakVM (speak_response vmFresh "hello" (.ok ()) [RecvEvent.timeout]
      (.ok "BLOB") 5)).state = VoiceState.listening :=
  ⟨rfl, rfl⟩

/-- C2 (amended): with the streaming session open and `send_text`
succeeding, if the receive attempts fail — any number of malformed
(JSON-undecodable) messages followed by a failure — then: a per-chunk
timeout ends the speaking phase with no audio delivered and no blob
fallback, the agent turn appended, and state `Listening`; a receive
exception instead triggers the single blob fallback call, whose audio is
delivered as one chunk, with no agent turn appended and state `Error`.
In both cases `speak_response` returns normally: the streaming failure
is not propagated as a fatal conversation error. -/
theorem C2_amended_recv_failures (vm : VMState) (text e a : String) (sid : ℕ)
    (pre rest : List RecvEvent) (now : ℚ)
    (hact : vm.is_voice_mode_active = true)
    (hsess : vm.current_session = some sid)
    (hpre : ∀ x ∈ pre, x = RecvEvent.badJson) :
    speak_response vm text (.ok ()) (pre ++ RecvEvent.timeout :: rest) (.ok a) now =
      .ok { vm with
              state := VoiceState.listening,
              last_response := text,
              conversation_context :=
                vm.conversation_context ++ [⟨"assistant", text, now⟩] } [] ∧
    speak_response vm text (.ok ()) (pre ++ RecvEvent.connError e :: rest) (.ok a) now =
      .ok { vm with state := VoiceState.error } [a] := by
  have hcond : ¬ (vm.is_voice_mode_active = false ∨ vm.current_session = none) := by
    simp [hact, hsess]
  constructor
  · have hloop : speakLoop (pre ++ RecvEvent.timeout :: rest) [] =
        ([], SpeakExit.timedOut) := by
      rw [speakLoop_skips_badJson pre _ [] hpre]
      rfl
    simp only [speak_response]
    rw [if_neg hcond, hloop]
  · have hloop : speakLoop (pre ++ RecvEvent.connError e :: rest) [] =
        ([], SpeakExit.raised e) := by
      rw [speakLoop_skips_badJson pre _ [] hpre]
      rfl
    simp only [speak_response]
    rw [if_neg hcond, hloop]
    rfl

/-- C2 witness for the amended claim, at a fresh session with reply
`"hello there"`, blob audio `"BLOB"`, no malformed messages, and each
failure mode in turn. -/
theorem C2_amended_recv_failures_witness :
    speak_response vmFresh "hello there" (.ok ())
        ([] ++ RecvEvent.timeout :: []) (.ok "BLOB") 5 =
      .ok { vmFresh with
              state := VoiceState.listening,
              last_response := "hello there",
              conversation_context :=
                vmFresh.conversation_context ++ [⟨"assistant", "hello there", 5⟩] } [] ∧
    speak_response vmFresh "hello there" (.ok ())
        ([] ++ RecvEvent.connError "drop" :: []) (.ok "BLOB") 5 =
      .ok { vmFresh with state := VoiceState.error } ["BLOB"] :=
  C2_amended_recv_failures vmFresh "hello there" "drop" "BLOB" 0 [] [] 5 rfl rfl
    (by simp)

theorem listen_for_input_spec (vm : VMState) (frames : List (List Int))
    (events : List TimedFrag) (st now : ℚ)
    (hact : vm.is_voice_mode_active = true)
    (hrec : vm.stt_is_recording = true) :
    ∃ lui,
      listen_for_input vm frames events st now =
        .ok ({ vm with
                 state := VoiceState.listening,
                 last_user_input := lui,
                 conversation_context := vm.conversation_context ++
                   (if finalTranscript vm.voice_activation_threshold
                        vm.max_silence_duration vm.response_timeout frames events st = ""
                    then []
                    else [⟨"user",
                            finalTranscript vm.voice_activation_threshold
                              vm.max_silence_duration vm.response_timeout frames events st,
                            now⟩]) },
              finalTranscript vm.voice_activation_threshold vm.max_silence_duration
                vm.response_timeout frames events st) := by
  simp only [listen_for_input, hact, hrec]
  by_cases hdet : detect_speech_start vm.voice_activation_threshold frames = false
  · refine ⟨vm.last_user_input, ?_⟩
    have hft : finalTranscript vm.voice_activation_threshold vm.max_silence_duration
        vm.response_timeout frames events st = "" := by
      simp only [finalTranscript, hdet, if_true, ite_true]
    simp [hdet, hft]
  · have hft : finalTranscript vm.voice_activation_threshold vm.max_silence_duration
        vm.response_timeout frames events st =
          joinFrags (listenLoopAux vm.max_silence_duration vm.response_timeout st
            events st []).1 := by
      simp [finalTranscript, hdet]
    by_cases hfull : joinFrags (listenLoopAux vm.max_silence_duration vm.response_timeout st
        events st []).1 = ""
    · refine ⟨"", ?_⟩
      simp [hdet, hft, hfull]
    · refine ⟨joinFrags (listenLoopAux vm.max_silence_duration vm.response_timeout st
        events st []).1, ?_⟩
      simp [hdet, hft, hfull]

theorem speak_response_appends (vm : VMState) (text : String)
    (recv : List RecvEvent) (blob : Except String String) (now : ℚ)
    (hact : vm.is_voice_mode_active = true)
    (hsess : vm.current_session ≠ none)
    (hexit : exitEndsSpeaking (speakLoop recv []).2 = true) :
    speak_response vm text (.ok ()) recv blob now =
      .ok { vm with
              state := VoiceState.listening,
              last_response := text,
              conversation_context :=
                vm.conversation_context ++ [⟨"assistant", text, now⟩] }
        (speakLoop recv []).1 := by
  have hcond : ¬ (vm.is_voice_mode_active = false ∨ vm.current_session = none) := by
    simp [hact, hsess]
  simp only [speak_response]
  rw [if_neg hcond]
  rcases hle : speakLoop recv [] with ⟨delivered, ex⟩
  rw [hle] at hexit
  cases ex with
  | finalMsg => rfl
  | timedOut => rfl
  | raised e => simp [exitEndsSpeaking] at hexit
  | starved => simp [exitEndsSpeaking] at hexit

theorem handle_conversation_turn_spec (vm : VMState) (ts : TurnScript)
    (hact : vm.is_voice_mode_active = true)
    (hrec : vm.stt_is_recording = true)
    (hsess : vm.current_session ≠ none)
    (hgood : goodTurn vm.voice_activation_threshold vm.max_silence_duration
      vm.response_timeout ts = true) :
    ∃ vm1 lui lr,
      handle_conversation_turn vm ts =
        .done vm1
          (turnInput vm.voice_activation_threshold vm.max_silence_duration
            vm.response_timeout ts)
          (if turnInput vm.voice_activation_threshold vm.max_silence_duration
               vm.response_timeout ts = ""
           then "" else turnReply ts) ∧
      vm1 = { vm with
                state := VoiceState.listening,
                last_user_input := lui,
                last_response := lr,
                conversation_context := vm.conversation_context ++
                  (if turnInput vm.voice_activation_threshold vm.max_silence_duration
                       vm.response_timeout ts = ""
                   then []
                   else [⟨"user",
                           turnInput vm.voice_activation_threshold vm.max_silence_duration
                             vm.response_timeout ts, ts.now⟩,
                         ⟨"assistant", turnReply ts, ts.now⟩]) } := by
  obtain ⟨lui, hlisten⟩ := listen_for_input_spec vm ts.frames ts.events ts.start_time
    ts.now hact hrec
  simp only [turnInput] at hgood ⊢
  simp only [handle_conversation_turn, hact, hlisten]
  by_cases hinp : finalTranscript vm.voice_activation_threshold vm.max_silence_duration
      vm.response_timeout ts.frames ts.events ts.start_time = ""
  · refine ⟨_, lui, vm.last_response, ?_, rfl⟩
    simp [hinp]
  · have hgood' := hgood
    simp only [goodTurn, turnInput, Bool.or_eq_true, Bool.and_eq_true,
      decide_eq_true_eq] at hgood'
    rcases hgood' with h | ⟨⟨hagent, hsend⟩, hexit⟩
    · exact absurd h hinp
    rcases hA : ts.agentResult with eagent | fragments
    · rw [hA] at hagent
      simp at hagent
    rcases hS : ts.send_outcome with esend | u
    · rw [hS] at hsend
      simp at hsend
    rw [hA] at hagent
    have hrep : String.join fragments ≠ "" := by simpa using hagent
    have hu : u = () := rfl
    subst hu
    refine ⟨_, lui, String.join fragments, ?_, rfl⟩
    simp only [if_neg hinp, hA, hS]
    rw [if_pos hrep]
    rw [speak_response_appends]
    · simp [turnReply, hA]
    · rfl
    · simpa using hsess
    · exact hexit

theorem alternatingRoles_iff_chain (l : List Turn) :
    alternatingRoles l = true ↔ List.Chain' (fun a b : Turn => a.role ≠ b.role) l := by
  induction l with
  | nil => simp [alternatingRoles]
  | cons a t ih =>
    cases t with
    | nil => simp [alternatingRoles]
    | cons b t2 =>
      rw [List.chain'_cons, ← ih]
      simp [alternatingRoles]

theorem ctxAltOK_append_pair (l : List Turn) (u a : Turn)
    (hl : ctxAltOK l = true) (hu : u.role = "user") (ha : a.role = "assistant") :
    ctxAltOK (l ++ [u, a]) = true := by
  unfold ctxAltOK at hl ⊢
  rw [Bool.and_eq_true] at hl ⊢
  obtain ⟨halt, hlast⟩ := hl
  constructor
  · rw [alternatingRoles_iff_chain] at halt ⊢
    rw [List.chain'_append]
    refine ⟨halt, ?_, ?_⟩
    · simp [hu, ha]
    · intro x hx y hy
      simp only [List.head?_cons, Option.mem_def, Option.some_inj] at hy
      subst hy
      rw [hx] at hlast
      simp only [decide_eq_true_eq] at hlast
      rw [hu]
      exact hlast
  · have : l ++ [u, a] = (l ++ [u]) ++ [a] := by simp
    rw [this, List.getLast?_concat]
    simp [ha]

theorem runTurns_ctxAltOK : ∀ (script : List TurnScript) (vm : VMState),
    vm.is_voice_mode_active = true → vm.stt_is_recording = true →
    vm.current_session ≠ none →
    (∀ ts ∈ script, goodTurn vm.voice_activation_threshold vm.max_silence_duration
      vm.response_timeout ts = true) →
    ctxAltOK vm.conversation_context = true →
    ctxAltOK (runTurns vm script).conversation_context = true := by
  intro script
  induction script with
  | nil =>
    intro vm _ _ _ _ hctx
    simpa [runTurns] using hctx
  | cons ts rest ih =>
    intro vm hact hrec hsess hgood hctx
    obtain ⟨vm1, lui, lr, heq, hvm1⟩ := handle_conversation_turn_spec vm ts hact hrec hsess
      (hgood ts (List.mem_cons_self _ _))
    subst hvm1
    simp only [runTurns, heq]
    apply ih
    · exact hact
    · exact hrec
    · simpa using hsess
    · intro ts2 hts2
      exact hgood ts2 (List.mem_cons_of_mem _ hts2)
    · by_cases hinp : turnInput vm.voice_activation_threshold vm.max_silence_duration
          vm.response_timeout ts = ""
      · simpa [hinp] using hctx
      · simp only [if_neg hinp]
        exact ctxAltOK_append_pair _ _ _ hctx rfl rfl

/-- C3 counterexample: two consecutive turns in which the user input
finalizes non-empty (`"hi"`, then `"again"`) but the agent yields no
fragments, so no agent turn is ever appended between the two user turns:
the resulting transcript `user, user` violates strict alternation. -/
theorem C3_counterexample :
    alternatingRoles
      ((runTurns vmFresh [tsEmptyReply, tsEmptyReply2]).conversation_context) = false := by
  have hdet : detect_speech_start ((1 : ℚ)/50) [[1000]] = true := by
    simp only [detect_speech_start, maxAbsAmp, List.any_cons, List.any_nil,
      List.map_cons, List.map_nil, List.foldr_cons, List.foldr_nil, Bool.or_false,
      decide_eq_true_eq]
    norm_num
  have hloop : ∀ txt : String, listenLoopAux 2 10 0 [⟨1, txt⟩] 0 [] =
      (if pyStrip txt ≠ "" then [pyStrip txt] else [], ListenExit.streamEnded) := by
    intro txt
    by_cases h : pyStrip txt ≠ ""
    · simp only [listenLoopAux, if_pos h]
      norm_num
    · simp only [listenLoopAux, if_neg h]
      norm_num
  have hps1 : pyStrip "hi" = "hi" := by decide
  have hps2 : pyStrip "again" = "again" := by decide
  have hjf1 : joinFrags ["hi"] = "hi" := by decide
  have hjf2 : joinFrags ["again"] = "again" := by decide
  have hsj : String.join ([] : List String) = "" := rfl
  have h1 : handle_conversation_turn vmFresh tsEmptyReply =
      TurnResult.done
        { vmFresh with
            state := VoiceState.processing
            last_user_input := "hi"
            conversation_context := [⟨"user", "hi", 1⟩] } "hi" "" := by
    simp [handle_conversation_turn, listen_for_input, vmFresh, tsEmptyReply,
      hdet, hloop, hps1, hjf1, hsj, -one_div]
  have h2 : handle_conversation_turn
      { vmFresh with
          state := VoiceState.processing
          last_user_input := "hi"
          conversation_context := [⟨"user", "hi", 1⟩] } tsEmptyReply2 =
      TurnResult.done
        { vmFresh with
            state := VoiceState.processing
            last_user_input := "again"
            conversation_context := [⟨"user", "hi", 1⟩, ⟨"user", "again", 1⟩] }
        "again" "" := by
    simp [handle_conversation_turn, listen_for_input, vmFresh, tsEmptyReply,
      tsEmptyReply2, hdet, hloop, hps2, hjf2, hsj, -one_div]
  simp only [runTurns, h1, h2]
  decide

/-- C3 (amended): the appended turns strictly alternate user/agent
provided every turn that finalizes a non-empty user input also obtains a
non-empty agent reply whose speaking phase completes by final chunk or
chunk timeout (so the agent turn is appended).  Without that proviso the
code can append a user turn with no agent turn after it (empty reply, or
a speak failure), producing two consecutive user turns. -/
theorem C3_amended_alternation (vm : VMState) (script : List TurnScript)
    (hact : vm.is_voice_mode_active = true)
    (hrec : vm.stt_is_recording = true)
    (hsess : vm.current_session ≠ none)
    (hgood : ∀ ts ∈ script, goodTurn vm.voice_activation_threshold
      vm.max_silence_duration vm.response_timeout ts = true)
    (hctx : vm.conversation_context = []) :
    alternatingRoles (runTurns vm script).conversation_context = true := by
  have h := runTurns_ctxAltOK script vm hact hrec hsess hgood
    (by rw [hctx]; rfl)
  unfold ctxAltOK at h
  rw [Bool.and_eq_true] at h
  exact h.1

/-- C3 witness: one complete good turn (`"goodbye"` → `"bye now"`,
streamed to the final chunk) from a fresh session leaves an alternating
transcript. -/
theorem C3_amended_alternation_witness :
    alternatingRoles ((runTurns vmFresh [tsGoodbye]).conversation_context) = true :=
  C3_amended_alternation vmFresh [tsGoodbye] rfl rfl (by decide)
    (by intro ts hts
        simp only [List.mem_singleton] at hts
        subst hts
        unfold goodTurn
        rw [Bool.or_eq_true]
        right
        decide)
    rfl

theorem detect_1000_frame : detect_speech_start ((1 : ℚ)/50) [[1000]] = true := by
  simp only [detect_speech_start, maxAbsAmp, List.any_cons, List.any_nil,
    List.map_cons, List.map_nil, List.foldr_cons, List.foldr_nil, Bool.or_false,
    decide_eq_true_eq]
  norm_num

theorem listenLoopAux_single (txt : String) :
    listenLoopAux 2 10 0 [⟨1, txt⟩] 0 [] =
      (if pyStrip txt ≠ "" then [pyStrip txt] else [], ListenExit.streamEnded) := by
  by_cases h : pyStrip txt ≠ ""
  · simp only [listenLoopAux, if_pos h]
    norm_num
  · simp only [listenLoopAux, if_neg h]
    norm_num

theorem turnInput_tsGoodbye : turnInput ((1 : ℚ)/50) 2 10 tsGoodbye = "goodbye" := by
  have hps : pyStrip "goodbye" = "goodbye" := by decide
  have hjf : joinFrags ["goodbye"] = "goodbye" := by decide
  simp [turnInput, finalTranscript, tsGoodbye, detect_1000_frame,
    listenLoopAux_single, hps, hjf, -one_div]

/-- C6: in a run of `continuous_conversation` whose turns all complete
(good turns), where the turns before `s` contain no stop phrase and
`s`'s lower-cased finalized input contains one, the loop emits only
completed-turn events — each covering its full listen/process/speak
cycle, so the final reply's Speaking phase has finished — followed by
exactly one `stop_voice_mode` execution as the very last event, leaving
the session `Idle` and inactive. -/
theorem C6_stop_phrase_clean_exit (vm : VMState) (stop_phrases : List String)
    (pre : List TurnScript) (s : TurnScript) (rest : List TurnScript)
    (hact : vm.is_voice_mode_active = true)
    (hrec : vm.stt_is_recording = true)
    (hsess : vm.current_session ≠ none)
    (hpre : ∀ ts ∈ pre,
      goodTurn vm.voice_activation_threshold vm.max_silence_duration
        vm.response_timeout ts = true ∧
      stopHit stop_phrases (turnInput vm.voice_activation_threshold
        vm.max_silence_duration vm.response_timeout ts) = false)
    (hgs : goodTurn vm.voice_activation_threshold vm.max_silence_duration
      vm.response_timeout s = true)
    (hstop : stopHit stop_phrases (turnInput vm.voice_activation_threshold
      vm.max_silence_duration vm.response_timeout s) = true) :
    ∃ (vmF : VMState) (dones : List ConvEvent) (rep : String),
      continuous_conversation vm stop_phrases (pre ++ s :: rest) =
        some (vmF, dones ++
          [ConvEvent.turnDone (turnInput vm.voice_activation_threshold
              vm.max_silence_duration vm.response_timeout s) rep,
           ConvEvent.stopped]) ∧
      (∀ ev ∈ dones, ∃ u r, ev = ConvEvent.turnDone u r) ∧
      (dones ++
        [ConvEvent.turnDone (turnInput vm.voice_activation_threshold
            vm.max_silence_duration vm.response_timeout s) rep,
         ConvEvent.stopped]).count ConvEvent.stopped = 1 ∧
      vmF.state = VoiceState.idle ∧
      vmF.is_voice_mode_active = false := by
  induction pre generalizing vm with
  | nil =>
    obtain ⟨vm1, lui, lr, heq, hvm1⟩ :=
      handle_conversation_turn_spec vm s hact hrec hsess hgs
    have hstop' : (stop_phrases.any fun phrase =>
        containsSub (pyLower (turnInput vm.voice_activation_threshold
          vm.max_silence_duration vm.response_timeout s)) phrase) = true := hstop
    refine ⟨(stop_voice_mode vm1).1, [],
      (if turnInput vm.voice_activation_threshold vm.max_silence_duration
        vm.response_timeout s = "" then "" else turnReply s), ?_, ?_, ?_, rfl, rfl⟩
    · simp only [List.nil_append, List.cons_append, continuous_conversation, hact,
        heq, hstop']
      simp
    · simp
    · simp [List.count_cons]
  | cons ts pre2 ih =>
    obtain ⟨hgts, hsts⟩ := hpre ts (List.mem_cons_self _ _)
    obtain ⟨vm1, lui, lr, heq, hvm1⟩ :=
      handle_conversation_turn_spec vm ts hact hrec hsess hgts
    have hsts' : ¬ ((stop_phrases.any fun phrase =>
        containsSub (pyLower (turnInput vm.voice_activation_threshold
          vm.max_silence_duration vm.response_timeout ts)) phrase) = true) := by
      intro hcontra
      rw [show (stop_phrases.any fun phrase =>
        containsSub (pyLower (turnInput vm.voice_activation_threshold
          vm.max_silence_duration vm.response_timeout ts)) phrase) =
          stopHit stop_phrases (turnInput vm.voice_activation_threshold
            vm.max_silence_duration vm.response_timeout ts) from rfl, hsts] at hcontra
      cases hcontra
    obtain ⟨vmF, dones, rep, hceq, hdones, hcount, hidle, hinact⟩ :=
      ih vm1 (by simp [hvm1, hact]) (by simp [hvm1, hrec]) (by simp [hvm1]; simpa using hsess)
        (by intro ts2 hts2
            have := (hpre ts2 (List.mem_cons_of_mem _ hts2))
            simpa [hvm1] using this)
        (by simpa [hvm1] using hgs)
        (by simpa [hvm1] using hstop)
    refine ⟨vmF, ConvEvent.turnDone (turnInput vm.voice_activation_threshold
        vm.max_silence_duration vm.response_timeout ts)
        (if turnInput vm.voice_activation_threshold vm.max_silence_duration
            vm.response_timeout ts = "" then "" else turnReply ts) :: dones,
      rep, ?_, ?_, ?_, hidle, hinact⟩
    · simp only [List.cons_append, continuous_conversation, List.append_eq, hact, heq]
      rw [if_neg (by simp : ¬ (true = false))]
      rw [if_neg hsts', hceq]
      simp [hvm1]
    · intro ev hev
      rcases List.mem_cons.mp hev with rfl | h
      · exact ⟨_, _, rfl⟩
      · exact hdones ev h
    · simp only [List.cons_append, List.count_cons] at hcount ⊢
      simpa using hcount

/-- C6 witness: one scripted turn whose finalized input `"goodbye"`
contains the default stop phrase; the loop emits that turn's completed
event, then stops exactly once, ending `Idle` and inactive. -/
theorem C6_stop_phrase_clean_exit_witness :
    ∃ (vmF : VMState) (dones : List ConvEvent) (rep : String),
      continuous_conversation vmFresh defaultStopPhrases ([] ++ tsGoodbye :: []) =
        some (vmF, dones ++
          [ConvEvent.turnDone (turnInput vmFresh.voice_activation_threshold
              vmFresh.max_silence_duration vmFresh.response_timeout tsGoodbye) rep,
           ConvEvent.stopped]) ∧
      (∀ ev ∈ dones, ∃ u r, ev = ConvEvent.turnDone u r) ∧
      (dones ++
        [ConvEvent.turnDone (turnInput vmFresh.voice_activation_threshold
            vmFresh.max_silence_duration vmFresh.response_timeout tsGoodbye) rep,
         ConvEvent.stopped]).count ConvEvent.stopped = 1 ∧
      vmF.state = VoiceState.idle ∧
      vmF.is_voice_mode_active = false :=
  C6_stop_phrase_clean_exit vmFresh defaultStopPhrases [] tsGoodbye [] rfl rfl
    (by decide)
    (by simp)
    (by unfold goodTurn
        rw [Bool.or_eq_true]
        right
        decide)
    (by show stopHit defaultStopPhrases (turnInput ((1 : ℚ)/50) 2 10 tsGoodbye) = true
        rw [turnInput_tsGoodbye]
        decide)

end AIDEN
